import Mathlib

/-!
Verification development for the two-pass assembler in this repository.

The definitions below are a shallow embedding of the C sources:
memory.c / memory.h (memory state, counters, stream nodes), label.c / label.h
(symbol table), parser.c (word codec, addressing modes, operand encoding,
directive handlers, second pass), validations.c (validators),
assembler.c (relocation), file_manager.c (output line production) and
constants.h (numeric constants).  C linked lists become Lean lists kept in
the same insertion order (the C code appends at the tail); C strings become
Lean strings or character lists, where reading one past the end of a token
yields the NUL terminator; the global error accumulator of error.c becomes
a list field of the state, appended at the end exactly like add_error.
-/

namespace Assembler

/-! Constants from include/constants.h and include/memory.h. -/

/-- UNDEFINED_MODE from constants.h. -/
def UNDEFINED_MODE : Int := -1

/-- IMMEDIATE_MODE from constants.h. -/
def IMMEDIATE_MODE : Int := 1

/-- DIRECT_MODE from constants.h. -/
def DIRECT_MODE : Int := 2

/-- INDIRECT_REGISTER_MODE from constants.h. -/
def INDIRECT_REGISTER_MODE : Int := 4

/-- DIRECT_REGISTER_MODE from constants.h. -/
def DIRECT_REGISTER_MODE : Int := 8

/-- FIRST_REGISTER from constants.h: the character constant is the digit one,
not the digit zero. -/
def FIRST_REGISTER : Char := '1'

/-- LAST_REGISTER from constants.h. -/
def LAST_REGISTER : Char := '7'

/-- ARE_ABSOLUTE from constants.h (binary 100). -/
def ARE_ABSOLUTE : Nat := 4

/-- ARE_RELOCATABLE from constants.h (binary 010). -/
def ARE_RELOCATABLE : Nat := 2

/-- ARE_EXTERNAL from constants.h (binary 001). -/
def ARE_EXTERNAL : Nat := 1

/-- MEMORY_SIZE from memory.h. -/
def MEMORY_SIZE : Nat := 4096

/-- WORD_SIZE from memory.h. -/
def WORD_SIZE : Nat := 15

/-- Character of a C string at an index: one past the final character the
NUL terminator is read, modelled as the character of code zero. -/
def chAt (s : List Char) (i : Nat) : Char := s.getD i (Char.ofNat 0)

/-- Error codes from include/error.h (the ones reachable from the embedded
handlers). -/
inductive AErr where
  | FILE_NOT_FOUND
  | UNEXPECTED_TOKEN
  | INVALID_LABEL_NAME
  | LABEL_NAME_USED_AS_MACRO
  | RESERVED_WORD
  | INVALID_DATA
  | INVALID_STRING
  | INVALID_SOURCE_OPERAND
  | INVALID_DEST_OPERAND
  | INVALID_ADDRESS_MODE
  | LABEL_ALREADY_DECLARED
  | LABEL_DECLARED_AS_EXTERNAL
  | LABEL_NOT_DECLARED
  | ENTRY_LABEL_EXTERNAL
deriving DecidableEq, Repr

/-- Label record from include/label.h.  The C pointers name and file_name
become strings; next pointers become the enclosing list. -/
structure Label where
  name : String
  file_name : String
  address : Nat
  line_number : Nat
  is_instruction : Bool
  entry : Bool
  external : Bool
  declared : Bool
deriving DecidableEq, Repr

/-- ListNode from include/memory.h: one emitted word of the instruction or
data stream.  data is the 16-bit C field Word (unsigned short); label_name
is NULL or the referenced label's name. -/
structure ListNode where
  address : Nat
  data : Nat
  label_name : Option String
deriving DecidableEq, Repr

/-- The Memory structure from include/memory.h restricted to the fields the
embedded operations touch, together with the global error accumulator of
error.c and the global macro-name list of preprocessor.c (validate_label_name
consults find_macro). -/
structure Mem where
  IC : Nat
  DC : Nat
  current_file : String
  current_line_number : Nat
  instructionList : List ListNode
  dataList : List ListNode
  label_list : List Label
  errors : List AErr
  macros : List String
deriving DecidableEq, Repr

/-- initialize_memory from memory.c: IC starts at 0 and DC starts at 100. -/
def initialize_memory : Mem :=
  { IC := 0, DC := 100, current_file := "", current_line_number := 0,
    instructionList := [], dataList := [], label_list := [], errors := [],
    macros := [] }

/-- add_error from error.c: the record is appended at the end of the
accumulator (errors[error_count++]). -/
def add_error_st (mem : Mem) (e : AErr) : Mem :=
  { mem with errors := mem.errors ++ [e] }

/-- write_to_memory from memory.c: appends a node carrying the word masked
to 15 bits at the tail of the instruction list or the data list. -/
def write_to_memory (mem : Mem) (address : Nat) (word : Nat)
    (isInstruction : Bool) (label_name : Option String) : Mem :=
  let newNode : ListNode :=
    { address := address, data := word &&& 0x7FFF, label_name := label_name }
  if isInstruction then
    { mem with instructionList := mem.instructionList ++ [newNode] }
  else
    { mem with dataList := mem.dataList ++ [newNode] }

/-- increment_IC from memory.c: increments only while IC is strictly below
MEMORY_SIZE, otherwise leaves the state unchanged. -/
def increment_IC (mem : Mem) : Mem :=
  if mem.IC < MEMORY_SIZE then { mem with IC := mem.IC + 1 } else mem

/-- increment_DC from memory.c: increments only while DC is strictly below
MEMORY_SIZE, otherwise leaves the state unchanged. -/
def increment_DC (mem : Mem) : Mem :=
  if mem.DC < MEMORY_SIZE then { mem with DC := mem.DC + 1 } else mem

/-- find_label from label.c: first list element with the given name. -/
def find_label : List Label → String → Option Label
  | [], _ => none
  | l :: rest, name => if l.name = name then some l else find_label rest name

/-- is_label from label.c. -/
def is_label (token : String) : List Label → Bool
  | [] => false
  | l :: rest => if l.name = token then true else is_label token rest

/-- Updates the first label of the list carrying the given name, as the C
code does by mutating the pointer returned by find_label. -/
def update_first : List Label → String → (Label → Label) → List Label
  | [], _, _ => []
  | l :: rest, name, f =>
      if l.name = name then f l :: rest else l :: update_first rest name f

/-- add_label from label.c: if a label of that name exists, its first
occurrence is overwritten with the new fields; otherwise a new label is
appended at the tail. -/
def add_label (label_list : List Label) (name : String) (address : Nat)
    (is_instruction entry ext : Bool) (file_name : String) (declared : Bool)
    (line_number : Nat) : List Label :=
  if (find_label label_list name).isSome then
    update_first label_list name (fun _ =>
      { name := name, file_name := file_name, address := address,
        line_number := line_number, is_instruction := is_instruction,
        entry := entry, external := ext, declared := declared })
  else
    label_list ++ [{ name := name, file_name := file_name, address := address,
                     line_number := line_number, is_instruction := is_instruction,
                     entry := entry, external := ext, declared := declared }]

/-- int_to_word from parser.c: a negative value is first shifted by
1 shl WORD_SIZE (two's complement), and the result is masked to 15 bits.
Masking a (two's-complement) C int with 0x7FFF is taking the nonnegative
remainder modulo 2 ^ 15. -/
def int_to_word (value : Int) : Nat :=
  ((if value < 0 then 2 ^ WORD_SIZE + value else value) % (2 ^ WORD_SIZE : Int)).toNat

/-- get_addressing_mode from parser.c.  The register-range test compares the
digit character with FIRST_REGISTER and LAST_REGISTER from constants.h. -/
def get_addressing_mode (operand : List Char) : Int :=
  if chAt operand 0 = '#' then
    IMMEDIATE_MODE
  else if chAt operand 0 = 'r' ∧ FIRST_REGISTER ≤ chAt operand 1 ∧
      chAt operand 1 ≤ LAST_REGISTER then
    DIRECT_REGISTER_MODE
  else if chAt operand 0 = '*' ∧ chAt operand 1 = 'r' ∧
      FIRST_REGISTER ≤ chAt operand 2 ∧ chAt operand 2 ≤ LAST_REGISTER then
    INDIRECT_REGISTER_MODE
  else
    DIRECT_MODE

/-- Decoding a 15-bit word as a two's-complement signed value; this is the
reading the specification assigns to encoded words. -/
def word_to_int (w : Nat) : Int :=
  if w < 2 ^ (WORD_SIZE - 1) then (w : Int) else (w : Int) - 2 ^ WORD_SIZE

/-- isalpha of ctype.h in the C locale: an ASCII letter. -/
def isalpha (c : Char) : Bool :=
  ('A' ≤ c && c ≤ 'Z') || ('a' ≤ c && c ≤ 'z')

/-- isdigit of ctype.h. -/
def isdigit (c : Char) : Bool := '0' ≤ c && c ≤ '9'

/-- reserved_words from validations.c (note the table ends with the literal
string dot-intern, exactly as in the source). -/
def reserved_words : List String :=
  ["mov", "cmp", "add", "sub", "lea", "clr", "not", "inc",
   "dec", "jmp", "bne", "red", "prn", "jsr", "rts", "stop",
   ".data", ".string", ".extern", ".intern"]

/-- validCommands from validations.c (note the eighteenth entry is the
literal string endmar, exactly as in the source). -/
def validCommands : List String :=
  ["mov", "cmp", "add", "sub", "lea", "clr", "not", "inc",
   "dec", "jmp", "bne", "red", "prn", "jsr", "rts", "stop",
   "macr", "endmar"]

/-- is_reserved_word from validations.c. -/
def is_reserved_word (label_name : String) : Bool :=
  reserved_words.contains label_name

/-- validate_macro_name from validations.c.  A NULL pointer argument is
modelled as none. -/
def validate_macro_name (macroName : Option String) : Bool :=
  match macroName with
  | none => false
  | some name =>
    if validCommands.contains name then false
    else if ¬ isalpha (chAt name.data 0) then false
    else if name.length = 2 ∧ chAt name.data 0 = 'r' ∧
        '0' ≤ chAt name.data 1 ∧ chAt name.data 1 ≤ '7' then false
    else true

/-- validate_label_name from validations.c: pushes the matching error and
returns false when the name does not start with a letter, is a reserved
word, or is a defined macro name. -/
def validate_label_name (label_name : String) (mem : Mem) : Mem × Bool :=
  if ¬ isalpha (chAt label_name.data 0) then
    (add_error_st mem AErr.INVALID_LABEL_NAME, false)
  else if is_reserved_word label_name then
    (add_error_st mem AErr.RESERVED_WORD, false)
  else if mem.macros.contains label_name then
    (add_error_st mem AErr.LABEL_NAME_USED_AS_MACRO, false)
  else
    (mem, true)

/-- validate_data from validations.c: skips one leading hash mark, then one
sign, and requires every remaining character to be a decimal digit (an empty
remainder passes, as in the source). -/
def validate_data (data : List Char) : Bool :=
  let d1 := if chAt data 0 = '#' then data.drop 1 else data
  let d2 := if chAt d1 0 = '+' ∨ chAt d1 0 = '-' then d1.drop 1 else d1
  d2.all isdigit

/-- Decimal accumulation loop of atoi. -/
def digits_to_nat : List Char → Nat → Nat
  | [], acc => acc
  | c :: rest, acc =>
      if isdigit c then digits_to_nat rest (acc * 10 + (c.toNat - '0'.toNat))
      else acc

/-- atoi of stdlib.h on an already-trimmed token: an optional sign followed
by decimal digits, stopping at the first non-digit. -/
def atoi (s : List Char) : Int :=
  match s with
  | '-' :: rest => - (digits_to_nat rest 0 : Int)
  | '+' :: rest => (digits_to_nat rest 0 : Int)
  | _ => (digits_to_nat s 0 : Int)

/-- handle_double_register_operands from parser.c: the source register
number is shifted left by 3 and the destination register number by 6, the
ARE bits are Absolute, and the word is written at IC which is then
incremented. -/
def handle_double_register_operands (operand1 operand2 : List Char)
    (dest_mode source_mode : Int) (mem : Mem) : Mem :=
  let w1 : Nat :=
    if source_mode = INDIRECT_REGISTER_MODE then
      ((chAt operand1 2).toNat - '0'.toNat) <<< 3
    else
      ((chAt operand1 1).toNat - '0'.toNat) <<< 3
  let w2 : Nat :=
    if dest_mode = INDIRECT_REGISTER_MODE then
      ((chAt operand2 2).toNat - '0'.toNat) <<< 6
    else
      ((chAt operand2 1).toNat - '0'.toNat) <<< 6
  let additional_word := (w1 ||| w2 ||| ARE_ABSOLUTE) &&& 0xFFFF
  increment_IC (write_to_memory mem mem.IC additional_word true none)

/-- handle_operand from parser.c.  The C variable additional_word has the
16-bit type Word, so every in-place shift is truncated modulo 2 ^ 16 before
write_to_memory masks the stored word to 15 bits.  In the Direct case the
line number of a found label is refreshed, an unknown label is appended
undeclared with address 0, and the node records the referenced name. -/
def handle_operand (operand : List Char) (address_mode : Int) (mem : Mem) : Mem :=
  if address_mode = IMMEDIATE_MODE then
    if ¬ validate_data operand then add_error_st mem AErr.INVALID_DATA
    else
      let op := if chAt operand 0 = '#' then operand.drop 1 else operand
      let w := ((int_to_word (atoi op) <<< 3) &&& 0xFFFF) ||| ARE_ABSOLUTE
      increment_IC (write_to_memory mem mem.IC w true none)
  else if address_mode = DIRECT_MODE then
    match find_label mem.label_list (String.mk operand) with
    | some label =>
        let ll := update_first mem.label_list label.name
          (fun l => { l with line_number := mem.current_line_number })
        let mem1 := { mem with label_list := ll }
        let w0 := ((label.address &&& 0xFFFF) <<< 3) &&& 0xFFFF
        let w := if label.external then w0 ||| ARE_EXTERNAL
                 else w0 ||| ARE_RELOCATABLE
        increment_IC (write_to_memory mem1 mem1.IC w true (some label.name))
    | none =>
        let ll := add_label mem.label_list (String.mk operand) 0 false false false
          mem.current_file false mem.current_line_number
        let mem1 := { mem with label_list := ll }
        increment_IC (write_to_memory mem1 mem1.IC (0 ||| ARE_EXTERNAL) true
          (some (String.mk operand)))
  else if address_mode = INDIRECT_REGISTER_MODE then
    let w := ((((chAt operand 2).toNat - '0'.toNat) <<< 6) &&& 0xFFFF) ||| ARE_ABSOLUTE
    increment_IC (write_to_memory mem mem.IC w true none)
  else if address_mode = DIRECT_REGISTER_MODE then
    let w := ((((chAt operand 1).toNat - '0'.toNat) <<< 6) &&& 0xFFFF) ||| ARE_ABSOLUTE
    increment_IC (write_to_memory mem mem.IC w true none)
  else
    add_error_st mem AErr.INVALID_ADDRESS_MODE

/-- The operand-word emission block of handle_instruction (parser.c lines
291 to 301): with two operands that are both register-form one combined word
is emitted, otherwise one word per operand in source-then-destination order;
with a single operand it is treated as the destination. -/
def handle_instruction_operands (operand1 operand2 : Option (List Char))
    (source_mode dest_mode : Int) (mem : Mem) : Mem :=
  match operand1, operand2 with
  | some op1, some op2 =>
      if (dest_mode = INDIRECT_REGISTER_MODE ∨ dest_mode = DIRECT_REGISTER_MODE) ∧
         (source_mode = INDIRECT_REGISTER_MODE ∨ source_mode = DIRECT_REGISTER_MODE) then
        handle_double_register_operands op1 op2 dest_mode source_mode mem
      else
        handle_operand op2 dest_mode (handle_operand op1 source_mode mem)
  | some op1, none => handle_operand op1 dest_mode mem
  | none, _ => mem

/-- handle_entry from parser.c, with the strtok extraction of the operand
token after the dot-entry keyword abstracted into the token argument.  When
the label exists, LabelAlreadyDeclared is pushed if it is external, already
entry, or declared in a different file, and in every case its entry flag is
set and its file and line are refreshed; otherwise a new entry-flagged
undeclared label is appended. -/
def handle_entry (token : String) (mem : Mem) : Mem :=
  match validate_label_name token mem with
  | (mem1, ok) =>
    if ¬ ok then mem1
    else
      match find_label mem1.label_list token with
      | some label =>
          let mem2 :=
            if label.external ∨ label.entry ∨
               (label.declared ∧ label.file_name ≠ mem1.current_file) then
              add_error_st mem1 AErr.LABEL_ALREADY_DECLARED
            else mem1
          let upd := fun (l : Label) =>
            { l with entry := true, file_name := mem2.current_file,
                     line_number := mem2.current_line_number }
          let ll := update_first mem2.label_list token upd
          { mem2 with label_list := ll }
      | none =>
          let ll := add_label mem1.label_list token 0 false true false
            mem1.current_file false mem1.current_line_number
          { mem1 with label_list := ll }

/-- The patch applied to one instruction node by the first loop of
second_parse (parser.c lines 585 to 604).  The C variable word has the
16-bit type Word, so the in-place or of the shifted address is truncated
modulo 2 ^ 16; the node's data field is assigned that word directly,
without the 15-bit mask of write_to_memory. -/
def resolve_node (label_list : List Label) (node : ListNode) : ListNode :=
  match node.label_name with
  | none => node
  | some nm =>
    match find_label label_list nm with
    | some label =>
        let are := if label.external then ARE_EXTERNAL
                   else if label.entry then ARE_RELOCATABLE
                   else ARE_ABSOLUTE
        { node with data :=
            (are ||| (int_to_word (label.address : Int) <<< 3)) &&& 0xFFFF }
    | none => { node with data := ARE_EXTERNAL }

/-- The instruction-stream patch loop of second_parse. -/
def second_parse_patch (mem : Mem) : Mem :=
  { mem with instructionList := mem.instructionList.map (resolve_node mem.label_list) }

/-- The relocation block of assemble (assembler.c lines 62 to 75): labels of
the data segment keep address 0 or shift by the final IC, instruction labels
and instruction nodes shift by 100, data nodes shift by the final IC. -/
def relocate (mem : Mem) : Mem :=
  { mem with
    label_list := mem.label_list.map (fun l =>
      if ¬ l.is_instruction then
        if l.address = 0 then l else { l with address := l.address + mem.IC }
      else { l with address := l.address + 100 }),
    instructionList := mem.instructionList.map (fun n =>
      { n with address := n.address + 100 }),
    dataList := mem.dataList.map (fun n =>
      { n with address := n.address + mem.IC }) }

/-- The entries-file lines produced by write_output_files (file_manager.c
lines 145 to 153): one line per label whose entry flag is set, carrying the
label's address. -/
def ent_lines (label_list : List Label) : List (String × Nat) :=
  (label_list.filter (fun l => l.entry)).map (fun l => (l.name, l.address))

/-- The externals-file lines produced by write_output_files (file_manager.c
lines 145 to 153): the loop walks the label list and, for each label that is
not entry but external, writes one line carrying the label's own stored
address. -/
def ext_lines (label_list : List Label) : List (String × Nat) :=
  (label_list.filter (fun l => ¬ l.entry ∧ l.external)).map
    (fun l => (l.name, l.address))

/-- One pass-1 word emission.  Every instruction word the first pass emits
is produced by write_to_memory at the current IC followed by increment_IC
(parser.c lines 139 to 140, 287 to 288, 349 to 350 and 422 to 423), and
every data word by write_to_memory at the current DC followed by
increment_DC (parser.c lines 58 to 59 and 85 to 89); an emission event
records the word and, for instruction words, the optional referenced
label. -/
inductive EmitEvent where
  | instr (word : Nat) (label_name : Option String)
  | data (word : Nat)
deriving DecidableEq, Repr

/-- Effect of one emission event on the memory state, exactly the
write-then-increment pairs quoted above. -/
def emit_step (mem : Mem) : EmitEvent → Mem
  | .instr w nm => increment_IC (write_to_memory mem mem.IC w true nm)
  | .data w => increment_DC (write_to_memory mem mem.DC w false none)

/-- A pass-1 run, as the sequence of its word emissions applied to the
freshly initialized memory. -/
def run_emits (evs : List EmitEvent) : Mem :=
  evs.foldl emit_step initialize_memory

/-- Number of instruction-word emissions of a run. -/
def instr_count (evs : List EmitEvent) : Nat :=
  (evs.filter (fun e => match e with | .instr _ _ => true | .data _ => false)).length

/-- Number of data-word emissions of a run. -/
def data_count (evs : List EmitEvent) : Nat :=
  (evs.filter (fun e => match e with | .instr _ _ => false | .data _ => true)).length

/-! Concrete states used to evaluate the second pass and the output writer. -/

/-- A post-relocation state for claim C1: label L is declared, internal
(not external) and not marked entry, with final address 250; one instruction
node references it. -/
def c1_mem : Mem :=
  { initialize_memory with
    IC := 3,
    instructionList := [{ address := 101, data := 0, label_name := some "L" }],
    label_list := [{ name := "L", file_name := "a.am", address := 250,
                     line_number := 3, is_instruction := true, entry := false,
                     external := false, declared := true }] }

/-- A post-relocation state for claim C5: declared data label D has final
address 4196 (reachable once the instruction segment holds 4096 words and
data follows it), and one instruction node references it. -/
def c5_mem : Mem :=
  { initialize_memory with
    IC := 4096,
    instructionList := [{ address := 101, data := 0, label_name := some "D" }],
    label_list := [{ name := "D", file_name := "a.am", address := 4196,
                     line_number := 9, is_instruction := false, entry := false,
                     external := false, declared := true }] }

/-- A post-relocation, error-free state for claim C3: external label EXT
(address 0) is referenced by two distinct instruction nodes. -/
def c3_mem : Mem :=
  { initialize_memory with
    IC := 6,
    instructionList :=
      [{ address := 100, data := 516, label_name := none },
       { address := 101, data := 1, label_name := some "EXT" },
       { address := 102, data := 132, label_name := none },
       { address := 103, data := 516, label_name := none },
       { address := 104, data := 1, label_name := some "EXT" },
       { address := 105, data := 132, label_name := none }],
    label_list := [{ name := "EXT", file_name := "a.am", address := 0,
                     line_number := 1, is_instruction := false, entry := false,
                     external := true, declared := false }] }

/-- A pass-1 state for claim C4: the opcode word was just emitted (IC is 1)
and label X is known with pre-relocation address 300. -/
def c4_mem : Mem :=
  { initialize_memory with
    IC := 1,
    current_file := "a.am", current_line_number := 4,
    instructionList := [{ address := 0, data := 2116, label_name := none }],
    label_list := [{ name := "X", file_name := "a.am", address := 300,
                     line_number := 2, is_instruction := true, entry := false,
                     external := false, declared := true }] }

/-- Structural invariant of pass 1: IC mirrors the instruction-stream
length, every instruction node was written at a counter value below the
current IC, DC lies between its start 100 (initialize_memory) and 100 plus
the data-stream length, and every data node was written at an address in
that same window.  The DC clauses are inequalities, not an equality, so the
invariant tolerates saturation of the data counter at MEMORY_SIZE; only
instruction-counter saturation breaks it. -/
def StreamInv (s : Mem) : Prop :=
  s.IC = s.instructionList.length ∧
  100 ≤ s.DC ∧
  s.DC ≤ 100 + s.dataList.length ∧
  (∀ nd ∈ s.instructionList, nd.address < s.IC) ∧
  (∀ nd ∈ s.dataList, 100 ≤ nd.address ∧ nd.address < 100 + s.dataList.length)

/-- A pass-1 run that saturates the instruction counter: 4097 instruction
words followed by one data word. -/
def c6_cex_events : List EmitEvent :=
  List.replicate 4097 (EmitEvent.instr 4 none) ++ [EmitEvent.data 0]

/-- Label for the claim C9 counterexample: already marked entry, declared
in the current file, not external. -/
def c9_cex_label : Label :=
  { name := "A", file_name := "f.am", address := 120, line_number := 5,
    is_instruction := false, entry := true, external := false, declared := true }

/-- State for the claim C9 counterexample. -/
def c9_cex_mem : Mem :=
  { initialize_memory with
    current_file := "f.am", current_line_number := 9,
    label_list := [c9_cex_label] }

/-- Label for the claim C9 witness: declared in the current file, not yet
entry, not external. -/
def c9_wit_label : Label :=
  { name := "B", file_name := "f.am", address := 130, line_number := 2,
    is_instruction := true, entry := false, external := false, declared := true }

/-- State for the claim C9 witness. -/
def c9_wit_mem : Mem :=
  { initialize_memory with
    current_file := "f.am", current_line_number := 7,
    label_list := [c9_wit_label] }

/-- claim C1.  Counter-evaluation of the second pass at a declared,
internal, non-entry label: the patched node carries ARE bits 100
(ARE_ABSOLUTE), not the 010 (ARE_RELOCATABLE) the claim requires for a
declared non-external label; parser.c lines 590 to 595 select
ARE_RELOCATABLE only for entry-flagged labels. -/
theorem claim_C1_second_pass_are :
    (second_parse_patch c1_mem).instructionList =
      [{ address := 101, data := 2004, label_name := some "L" }] ∧
    2004 &&& 7 = ARE_ABSOLUTE ∧ ARE_ABSOLUTE ≠ ARE_RELOCATABLE := by
  decide

/-- claim C2.  Counter-evaluation of get_addressing_mode: because
FIRST_REGISTER in constants.h is the digit one, the operands r0 and *r0 are
classified as Direct (label) mode rather than the register modes the claim
states, while r1 to r7 behave as claimed. -/
theorem claim_C2_register_modes :
    get_addressing_mode ['r', '0'] = DIRECT_MODE ∧
    get_addressing_mode ['*', 'r', '0'] = DIRECT_MODE ∧
    DIRECT_MODE ≠ DIRECT_REGISTER_MODE ∧ DIRECT_MODE ≠ INDIRECT_REGISTER_MODE ∧
    get_addressing_mode ['r', '1'] = DIRECT_REGISTER_MODE ∧
    get_addressing_mode ['r', '7'] = DIRECT_REGISTER_MODE ∧
    get_addressing_mode ['*', 'r', '1'] = INDIRECT_REGISTER_MODE := by
  decide

/-- claim C3.  Counter-evaluation of the externals-file production: with an
external label referenced by two instruction nodes, write_output_files
produces exactly one line, pairing the label with its own stored address 0,
instead of one line per use site with the nodes' final addresses 101 and
104. -/
theorem claim_C3_ext_lines :
    (c3_mem.instructionList.filter
      (fun n => n.label_name = some "EXT")).map (fun n => n.address) =
        [101, 104] ∧
    ext_lines c3_mem.label_list = [("EXT", 0)] ∧
    (ext_lines c3_mem.label_list).length ≠ 2 := by
  decide

/-- claim C4.  Counter-evaluation of separate operand words: for the
instruction mov r2, X the source register operand r2 is encoded by
handle_operand as 2 shifted left by 6 (bits 8..6) or-ed with ARE_ABSOLUTE,
giving 132, not the bits 5..3 encoding 20 the claim requires for a source
register; the destination-register field of the claim does match the code. -/
theorem claim_C4_source_register_field :
    ((handle_instruction_operands (some ['r', '2']) (some ['X'])
        DIRECT_REGISTER_MODE DIRECT_MODE c4_mem).instructionList.map
      (fun n => n.data)) = [2116, 132, 2402] ∧
    132 = ((2 <<< 6) ||| ARE_ABSOLUTE) ∧
    132 ≠ ((2 <<< 3) ||| ARE_ABSOLUTE) := by
  decide

/-- claim C5.  Counter-evaluation of the second-pass patch: the word built
for a label with final address 4196 is 33572, which is at least 2 ^ 15, and
it is stored into the node unmasked (parser.c line 598 assigns node data
directly, without the 15-bit mask write_to_memory applies). -/
theorem claim_C5_unmasked_patch :
    (second_parse_patch c5_mem).instructionList =
      [{ address := 101, data := 33572, label_name := some "D" }] ∧
    2 ^ WORD_SIZE ≤ 33572 := by
  decide

/-- claim C8.  Counter-evaluation of validate_macro_name: the reserved
table validCommands in validations.c contains the string endmar instead of
endmacr, so the macro name endmacr is accepted although the claim requires
it rejected, and endmar is rejected although the claim accepts it; the
sixteen mnemonics, macr, register tokens and NULL behave as claimed. -/
theorem claim_C8_macro_name :
    validate_macro_name (some "endmacr") = true ∧
    validate_macro_name (some "endmar") = false ∧
    validate_macro_name (some "macr") = false ∧
    validate_macro_name (some "mov") = false ∧
    validate_macro_name (some "stop") = false ∧
    validate_macro_name (some "r0") = false ∧
    validate_macro_name (some "r7") = false ∧
    validate_macro_name (some "1ab") = false ∧
    validate_macro_name none = false ∧
    validate_macro_name (some "loop") = true := by
  decide

/-- claim C7.  int_to_word is a round trip of signed 15-bit two's
complement on the interval from -16384 to 16383: decoding the encoded word
as 15-bit two's complement gives the value back, a negative value is
encoded as 2 ^ 15 plus the value, and the result always fits in 15 bits. -/
theorem claim_C7_int_to_word_roundtrip (n : Int)
    (h1 : -16384 ≤ n) (h2 : n ≤ 16383) :
    word_to_int (int_to_word n) = n ∧
    (n < 0 → (int_to_word n : Int) = 2 ^ WORD_SIZE + n) ∧
    int_to_word n < 2 ^ WORD_SIZE := by
  have hrw : int_to_word n = (if n < 0 then 32768 + n else n).toNat := by
    unfold int_to_word WORD_SIZE
    norm_num
    split_ifs with hn <;> rw [Int.emod_eq_of_lt (by omega) (by omega)]
  rw [hrw]
  simp only [word_to_int, WORD_SIZE]
  norm_num
  split_ifs <;> exact ⟨by omega, fun _ => by omega, by omega⟩

/-- Witness for claim C7 at the concrete inputs -5 and 300. -/
theorem claim_C7_witness :
    (-16384 ≤ (-5 : Int) ∧ (-5 : Int) ≤ 16383 ∧
      word_to_int (int_to_word (-5)) = -5) ∧
    (-16384 ≤ (300 : Int) ∧ (300 : Int) ≤ 16383 ∧
      word_to_int (int_to_word 300) = 300) :=
  ⟨⟨by norm_num, by norm_num,
      (claim_C7_int_to_word_roundtrip (-5) (by norm_num) (by norm_num)).1⟩,
   ⟨by norm_num, by norm_num,
      (claim_C7_int_to_word_roundtrip 300 (by norm_num) (by norm_num)).1⟩⟩

/-! Projection lemmas for the state operations. -/

/-- write_to_memory with the instruction flag set appends to the
instruction stream. -/
theorem write_to_memory_true (mem : Mem) (a w : Nat) (l : Option String) :
    write_to_memory mem a w true l =
    { mem with
        instructionList := mem.instructionList ++ [⟨a, w &&& 0x7FFF, l⟩] } := rfl

/-- write_to_memory with the instruction flag clear appends to the data
stream. -/
theorem write_to_memory_false (mem : Mem) (a w : Nat) (l : Option String) :
    write_to_memory mem a w false l =
    { mem with
        dataList := mem.dataList ++ [⟨a, w &&& 0x7FFF, l⟩] } := rfl

@[simp] theorem write_to_memory_IC (mem : Mem) (a w : Nat) (b : Bool)
    (l : Option String) : (write_to_memory mem a w b l).IC = mem.IC := by
  cases b <;> rfl

@[simp] theorem write_to_memory_DC (mem : Mem) (a w : Nat) (b : Bool)
    (l : Option String) : (write_to_memory mem a w b l).DC = mem.DC := by
  cases b <;> rfl

@[simp] theorem write_to_memory_true_instructionList (mem : Mem) (a w : Nat)
    (l : Option String) :
    (write_to_memory mem a w true l).instructionList =
      mem.instructionList ++ [⟨a, w &&& 0x7FFF, l⟩] := rfl

@[simp] theorem write_to_memory_true_dataList (mem : Mem) (a w : Nat)
    (l : Option String) :
    (write_to_memory mem a w true l).dataList = mem.dataList := rfl

@[simp] theorem write_to_memory_false_dataList (mem : Mem) (a w : Nat)
    (l : Option String) :
    (write_to_memory mem a w false l).dataList =
      mem.dataList ++ [⟨a, w &&& 0x7FFF, l⟩] := rfl

@[simp] theorem write_to_memory_false_instructionList (mem : Mem) (a w : Nat)
    (l : Option String) :
    (write_to_memory mem a w false l).instructionList =
      mem.instructionList := rfl

@[simp] theorem increment_IC_IC (mem : Mem) :
    (increment_IC mem).IC =
      if mem.IC < MEMORY_SIZE then mem.IC + 1 else mem.IC := by
  unfold increment_IC; split <;> rfl

@[simp] theorem increment_IC_DC (mem : Mem) :
    (increment_IC mem).DC = mem.DC := by
  unfold increment_IC; split <;> rfl

@[simp] theorem increment_IC_instructionList (mem : Mem) :
    (increment_IC mem).instructionList = mem.instructionList := by
  unfold increment_IC; split <;> rfl

@[simp] theorem increment_IC_dataList (mem : Mem) :
    (increment_IC mem).dataList = mem.dataList := by
  unfold increment_IC; split <;> rfl

@[simp] theorem increment_DC_DC (mem : Mem) :
    (increment_DC mem).DC =
      if mem.DC < MEMORY_SIZE then mem.DC + 1 else mem.DC := by
  unfold increment_DC; split <;> rfl

@[simp] theorem increment_DC_IC (mem : Mem) :
    (increment_DC mem).IC = mem.IC := by
  unfold increment_DC; split <;> rfl

@[simp] theorem increment_DC_instructionList (mem : Mem) :
    (increment_DC mem).instructionList = mem.instructionList := by
  unfold increment_DC; split <;> rfl

@[simp] theorem increment_DC_dataList (mem : Mem) :
    (increment_DC mem).dataList = mem.dataList := by
  unfold increment_DC; split <;> rfl

@[simp] theorem instr_count_nil : instr_count [] = 0 := rfl

@[simp] theorem data_count_nil : data_count [] = 0 := rfl

@[simp] theorem instr_count_cons_instr (w : Nat) (nm : Option String)
    (evs : List EmitEvent) :
    instr_count (EmitEvent.instr w nm :: evs) = instr_count evs + 1 := by
  simp [instr_count]

@[simp] theorem instr_count_cons_data (w : Nat) (evs : List EmitEvent) :
    instr_count (EmitEvent.data w :: evs) = instr_count evs := by
  simp [instr_count]

@[simp] theorem data_count_cons_instr (w : Nat) (nm : Option String)
    (evs : List EmitEvent) :
    data_count (EmitEvent.instr w nm :: evs) = data_count evs := by
  simp [data_count]

@[simp] theorem data_count_cons_data (w : Nat) (evs : List EmitEvent) :
    data_count (EmitEvent.data w :: evs) = data_count evs + 1 := by
  simp [data_count]

/-- The two counters never exceed MEMORY_SIZE along any emission sequence
started from a state already within bounds. -/
theorem counters_le_fold (evs : List EmitEvent) : ∀ (s : Mem),
    s.IC ≤ MEMORY_SIZE → s.DC ≤ MEMORY_SIZE →
    (evs.foldl emit_step s).IC ≤ MEMORY_SIZE ∧
    (evs.foldl emit_step s).DC ≤ MEMORY_SIZE := by
  induction evs with
  | nil => exact fun s h1 h2 => ⟨h1, h2⟩
  | cons e rest ih =>
    intro s h1 h2
    rw [List.foldl_cons]
    apply ih
    · cases e <;> simp [emit_step] <;> (try split) <;> omega
    · cases e <;> simp [emit_step] <;> (try split) <;> omega

/-- claim C10.  The counter increments of memory.c advance only while the
counter is strictly below MEMORY_SIZE = 4096 and otherwise leave the state
unchanged, so along every pass-1 emission sequence, however long, both IC
and DC stay at most 4096. -/
theorem claim_C10_counters_bounded (mem : Mem) (evs : List EmitEvent) :
    MEMORY_SIZE = 4096 ∧
    increment_IC mem =
      (if mem.IC < MEMORY_SIZE then { mem with IC := mem.IC + 1 } else mem) ∧
    increment_DC mem =
      (if mem.DC < MEMORY_SIZE then { mem with DC := mem.DC + 1 } else mem) ∧
    (run_emits evs).IC ≤ 4096 ∧ (run_emits evs).DC ≤ 4096 := by
  refine ⟨rfl, rfl, rfl, ?_, ?_⟩ <;>
  · have h := counters_le_fold evs initialize_memory
      (by norm_num [initialize_memory, MEMORY_SIZE])
      (by norm_num [initialize_memory, MEMORY_SIZE])
    rw [run_emits]
    simp only [MEMORY_SIZE] at h
    omega

/-- While the instruction counter does not saturate, the pass-1 invariant
is preserved; the data counter is free to saturate, its clauses being
inequalities. -/
theorem stream_inv_fold (evs : List EmitEvent) : ∀ (s : Mem), StreamInv s →
    s.IC + instr_count evs ≤ MEMORY_SIZE →
    StreamInv (evs.foldl emit_step s) := by
  induction evs with
  | nil => intro s h _; simpa using h
  | cons e rest ih =>
    intro s hInv hI
    obtain ⟨hICl, hDC1, hDC2, hInstr, hData⟩ := hInv
    rw [List.foldl_cons]
    cases e with
    | instr w nm =>
      have hIlt : s.IC < MEMORY_SIZE := by simp at hI; omega
      have hstep : emit_step s (.instr w nm) = { s with IC := s.IC + 1, instructionList := s.instructionList ++ [⟨s.IC, w &&& 0x7FFF, nm⟩] } := by
        simp only [emit_step, write_to_memory_true, increment_IC]
        rw [if_pos]
        exact hIlt
      rw [hstep]
      apply ih
      · refine ⟨by simp [hICl], by simpa using hDC1, by simpa using hDC2, ?_, ?_⟩
        · intro nd hnd
          rcases List.mem_append.mp hnd with hmem | hmem
          · have := hInstr nd hmem; simp; omega
          · simp at hmem; subst hmem; simp
        · intro nd hnd
          have := hData nd hnd; simpa using this
      · simp at hI ⊢; omega
    | data w =>
      refine ih _ ?_ ?_
      · refine ⟨?_, ?_, ?_, ?_, ?_⟩
        · simpa [emit_step] using hICl
        · simp [emit_step]; split <;> omega
        · simp [emit_step]; split <;> omega
        · intro nd hnd
          simp only [emit_step, increment_DC_instructionList,
            write_to_memory_false_instructionList, increment_DC_IC,
            write_to_memory_IC] at hnd ⊢
          exact hInstr nd hnd
        · intro nd hnd
          simp only [emit_step, increment_DC_dataList,
            write_to_memory_false_dataList] at hnd ⊢
          rcases List.mem_append.mp hnd with hmem | hmem
          · have := hData nd hmem; simp; omega
          · simp at hmem; subst hmem; simp; omega
      · simp [emit_step] at hI ⊢; omega

/-- Projection of relocation on the instruction stream. -/
theorem relocate_instructionList (mem : Mem) :
    (relocate mem).instructionList =
      mem.instructionList.map (fun nd => { nd with address := nd.address + 100 }) := rfl

/-- Projection of relocation on the data stream. -/
theorem relocate_dataList (mem : Mem) :
    (relocate mem).dataList =
      mem.dataList.map (fun nd => { nd with address := nd.address + mem.IC }) := rfl

/-- claim C6 (amended).  Provided pass 1 emits at most 4096 instruction
words (so the instruction counter never saturates at MEMORY_SIZE), after
relocation every instruction-stream node has an address in the interval
from 100 up to but excluding 100 plus the number of instruction words, and
every data-stream node an address in the following interval of length the
number of data words.  No bound on the number of data words is required:
the data counter may saturate without affecting these bounds. -/
theorem claim_C6_amended (evs : List EmitEvent)
    (hI : instr_count evs ≤ 4096) :
    (∀ nd ∈ (relocate (run_emits evs)).instructionList,
        100 ≤ nd.address ∧
        nd.address < 100 + (run_emits evs).instructionList.length) ∧
    (∀ nd ∈ (relocate (run_emits evs)).dataList,
        100 + (run_emits evs).instructionList.length ≤ nd.address ∧
        nd.address < 100 + (run_emits evs).instructionList.length +
          (run_emits evs).dataList.length) := by
  have h0 : StreamInv initialize_memory := by
    refine ⟨rfl, by norm_num [initialize_memory], by norm_num [initialize_memory], ?_, ?_⟩ <;>
      intro nd hnd <;> simp [initialize_memory] at hnd
  obtain ⟨hICl, hDC1, hDC2, hInstr, hData⟩ :=
    stream_inv_fold evs initialize_memory h0
      (by simp [initialize_memory, MEMORY_SIZE]; omega)
  simp only [run_emits]
  constructor
  · intro nd hnd
    rw [relocate_instructionList] at hnd
    obtain ⟨m, hm, rfl⟩ := List.mem_map.mp hnd
    have hma := hInstr m hm
    constructor
    · simp
    · simp; omega
  · intro nd hnd
    rw [relocate_dataList] at hnd
    obtain ⟨m, hm, rfl⟩ := List.mem_map.mp hnd
    have hma := hData m hm
    constructor
    · simp; omega
    · simp; omega

/-- Witness for amended claim C6 on the two-emission run of one instruction
word and one data word. -/
theorem claim_C6_witness :
    instr_count [EmitEvent.instr 4 none, EmitEvent.data 7] ≤ 4096 ∧
    ((∀ nd ∈ (relocate (run_emits [EmitEvent.instr 4 none, EmitEvent.data 7])).instructionList,
        100 ≤ nd.address ∧
        nd.address <
          100 + (run_emits [EmitEvent.instr 4 none, EmitEvent.data 7]).instructionList.length) ∧
     (∀ nd ∈ (relocate (run_emits [EmitEvent.instr 4 none, EmitEvent.data 7])).dataList,
        100 + (run_emits [EmitEvent.instr 4 none, EmitEvent.data 7]).instructionList.length ≤
          nd.address ∧
        nd.address <
          100 + (run_emits [EmitEvent.instr 4 none, EmitEvent.data 7]).instructionList.length +
            (run_emits [EmitEvent.instr 4 none, EmitEvent.data 7]).dataList.length)) :=
  ⟨by decide, claim_C6_amended _ (by decide)⟩

/-- Folding a block of instruction emissions: IC saturates at MEMORY_SIZE,
the data stream is untouched, and the instruction stream grows by one node
per emission whether or not the counter still advances. -/
theorem replicate_instr_fold (w : Nat) (nm : Option String) (n : Nat) :
    ∀ (s : Mem), s.IC ≤ MEMORY_SIZE →
    (((List.replicate n (EmitEvent.instr w nm)).foldl emit_step s).IC =
        min (s.IC + n) MEMORY_SIZE) ∧
    (((List.replicate n (EmitEvent.instr w nm)).foldl emit_step s).DC = s.DC) ∧
    (((List.replicate n (EmitEvent.instr w nm)).foldl emit_step s).dataList =
        s.dataList) ∧
    (((List.replicate n (EmitEvent.instr w nm)).foldl emit_step s).instructionList.length =
        s.instructionList.length + n) := by
  induction n with
  | zero => intro s h; simp; omega
  | succ k ih =>
    intro s h
    rw [List.replicate_succ, List.foldl_cons]
    obtain ⟨f1, f2, f3, f4⟩ :=
      ih (emit_step s (.instr w nm)) (by simp [emit_step]; split <;> omega)
    refine ⟨?_, ?_, ?_, ?_⟩
    · rw [f1]; simp [emit_step]; split <;> omega
    · rw [f2]; simp [emit_step]
    · rw [f3]; simp [emit_step]
    · rw [f4]; simp [emit_step]; omega

/-- Counterexample for claim C6 as stated: a run of 4097 instruction words
saturates IC at 4096, so the single data word (written at DC = 100)
relocates to address 4196, strictly below 100 plus the 4097 instruction
words actually emitted, violating the claimed lower bound of the data
segment. -/
theorem claim_C6_counterexample :
    ∃ nd ∈ (relocate (run_emits c6_cex_events)).dataList,
      nd.address < 100 + (run_emits c6_cex_events).instructionList.length := by
  obtain ⟨hIC, hDC, hdata, hlen⟩ :=
    replicate_instr_fold 4 none 4097 initialize_memory
      (by norm_num [initialize_memory, MEMORY_SIZE])
  have hIC4096 :
      ((List.replicate 4097 (EmitEvent.instr 4 none)).foldl emit_step
        initialize_memory).IC = 4096 := by
    rw [hIC]; norm_num [initialize_memory, MEMORY_SIZE]
  have hDC100 :
      ((List.replicate 4097 (EmitEvent.instr 4 none)).foldl emit_step
        initialize_memory).DC = 100 := by
    rw [hDC]; rfl
  have hdataNil :
      ((List.replicate 4097 (EmitEvent.instr 4 none)).foldl emit_step
        initialize_memory).dataList = [] := by
    rw [hdata]; rfl
  have hlen4097 :
      ((List.replicate 4097 (EmitEvent.instr 4 none)).foldl emit_step
        initialize_memory).instructionList.length = 4097 := by
    rw [hlen]; rfl
  have hrun : run_emits c6_cex_events =
      emit_step ((List.replicate 4097 (EmitEvent.instr 4 none)).foldl emit_step
        initialize_memory) (EmitEvent.data 0) := by
    rw [run_emits, c6_cex_events, List.foldl_append, List.foldl_cons, List.foldl_nil]
  have hestep : ∀ (m : Mem) (w : Nat), emit_step m (EmitEvent.data w) =
      increment_DC (write_to_memory m m.DC w false none) := fun _ _ => rfl
  refine ⟨⟨4196, 0, none⟩, ?_, ?_⟩
  · simp only [relocate_dataList, hrun, hestep, increment_DC_dataList,
      increment_DC_IC, write_to_memory_IC, write_to_memory_false_dataList,
      hdataNil, hDC100, hIC4096, List.nil_append, List.map_cons, List.map_nil]
    exact List.mem_singleton.mpr rfl
  · have hx : (run_emits c6_cex_events).instructionList.length = 4097 := by
      rw [hrun, hestep, increment_DC_instructionList,
        write_to_memory_false_instructionList, hlen4097]
    show (4196 : Nat) < 100 + (run_emits c6_cex_events).instructionList.length
    rw [hx]
    norm_num

@[simp] theorem add_error_st_label_list (mem : Mem) (e : AErr) :
    (add_error_st mem e).label_list = mem.label_list := rfl

@[simp] theorem add_error_st_current_file (mem : Mem) (e : AErr) :
    (add_error_st mem e).current_file = mem.current_file := rfl

@[simp] theorem add_error_st_current_line_number (mem : Mem) (e : AErr) :
    (add_error_st mem e).current_line_number = mem.current_line_number := rfl

@[simp] theorem add_error_st_errors (mem : Mem) (e : AErr) :
    (add_error_st mem e).errors = mem.errors ++ [e] := rfl

/-- Looking a name up after updating its first occurrence with a
name-preserving function returns the updated record. -/
theorem find_label_update_first (ls : List Label) (name : String)
    (f : Label → Label) (hf : ∀ l, (f l).name = l.name) :
    find_label (update_first ls name f) name = (find_label ls name).map f := by
  induction ls with
  | nil => rfl
  | cons l rest ih =>
    by_cases h : l.name = name
    · simp [update_first, find_label, h, hf]
    · simp [update_first, find_label, h, ih]

/-- claim C9 (amended).  When the dot-entry target exists in the symbol
table (and its name passes validate_label_name), handle_entry appends
LabelAlreadyDeclared exactly when the label is external, already marked
entry, or declared in a different file — so a second consistent dot-entry
on the same label does append an error — and in every case the label is
(re)marked entry with the current file and line, so the entry flag itself
is idempotent. -/
theorem claim_C9_amended (mem : Mem) (token : String) (l : Label)
    (hFind : find_label mem.label_list token = some l)
    (hAlpha : isalpha (chAt token.data 0) = true)
    (hRes : is_reserved_word token = false)
    (hMac : mem.macros.contains token = false) :
    ((handle_entry token mem).errors =
      if l.external ∨ l.entry ∨ (l.declared ∧ l.file_name ≠ mem.current_file)
      then mem.errors ++ [AErr.LABEL_ALREADY_DECLARED] else mem.errors) ∧
    find_label (handle_entry token mem).label_list token =
      some { l with entry := true, file_name := mem.current_file,
                    line_number := mem.current_line_number } := by
  have hval : validate_label_name token mem = (mem, true) := by
    unfold validate_label_name
    rw [hAlpha, hRes, hMac]
    simp
  unfold handle_entry
  simp only [hval, hFind]
  norm_num
  split_ifs with hc
  · refine ⟨by simp, ?_⟩
    rw [find_label_update_first]
    · simp [hFind]
    · intro l2
      rfl
  · refine ⟨by simp, ?_⟩
    rw [find_label_update_first]
    · simp [hFind]
    · intro l2
      rfl

/-- Counterexample for claim C9 as stated: a dot-entry on a label that is
already marked entry, is not external and was declared in the current file
still appends LabelAlreadyDeclared, although the claim allows an error only
for external labels or labels declared in a different file. -/
theorem claim_C9_counterexample :
    c9_cex_label.entry = true ∧ c9_cex_label.external = false ∧
    c9_cex_label.declared = true ∧
    c9_cex_label.file_name = c9_cex_mem.current_file ∧
    find_label c9_cex_mem.label_list "A" = some c9_cex_label ∧
    c9_cex_mem.errors = [] ∧
    (handle_entry "A" c9_cex_mem).errors = [AErr.LABEL_ALREADY_DECLARED] := by
  decide

/-- Witness for amended claim C9 at a declared, same-file, non-entry
label: no error is appended and the label becomes entry. -/
theorem claim_C9_witness :
    find_label c9_wit_mem.label_list "B" = some c9_wit_label ∧
    isalpha (chAt "B".data 0) = true ∧
    is_reserved_word "B" = false ∧
    c9_wit_mem.macros.contains "B" = false ∧
    (((handle_entry "B" c9_wit_mem).errors =
        if c9_wit_label.external ∨ c9_wit_label.entry ∨
           (c9_wit_label.declared ∧ c9_wit_label.file_name ≠ c9_wit_mem.current_file)
        then c9_wit_mem.errors ++ [AErr.LABEL_ALREADY_DECLARED]
        else c9_wit_mem.errors) ∧
     find_label (handle_entry "B" c9_wit_mem).label_list "B" =
       some
       { c9_wit_label with
           entry := true,
           file_name := c9_wit_mem.current_file,
           line_number := c9_wit_mem.current_line_number }) :=
  ⟨by decide, by decide, by decide, by decide,
   claim_C9_amended c9_wit_mem "B" c9_wit_label (by decide) (by decide)
     (by decide) (by decide)⟩

end Assembler
